import Mathlib

/-!
Verification of the DMWSS Game Boy (DMG) emulation core.

This file gives a shallow embedding, in Lean, of the parts of the core that
the verified properties talk about:

* the event scheduler (`src/core/scheduler/scheduler.hpp`, `timer.cpp`),
* the timer unit (`src/core/timer/timer.cpp`),
* the picture unit's mode/line state machine (`src/core/ppu/ppu.cpp`),
* the memory bus with its paged fast path and I/O-handler dispatch
  (`src/core/memory/memory.cpp`),
* the cartridge controllers' read paths (`src/core/memory/mbc.cpp`),
* the processor's step/halt/interrupt logic and the branch instruction
  handlers (`src/core/cpu/cpu.cpp`, `cpu.hpp`).

Machine integers are modelled as `Nat` with explicit reductions
(`% 256`, `% 65536`) exactly where the C++ unsigned types overflow.
Byte arrays are modelled as functions `Nat → Nat`.
-/

namespace DMWSS

set_option maxRecDepth 8192

/-- Pointwise update of a byte-array modelled as a function. -/
def upd (f : Nat → Nat) (i v : Nat) : Nat → Nat :=
  fun j => if j = i then v else f j

theorem upd_same (f : Nat → Nat) (i v : Nat) : upd f i v i = v := by
  simp [upd]

theorem upd_other (f : Nat → Nat) (i v j : Nat) (h : j ≠ i) : upd f i v j = f j := by
  simp [upd, h]

/-! ## Scheduler (`scheduler.hpp` / the scheduler half of `timer.cpp`)

The C++ event queue is a `std::priority_queue` (binary min-heap on
`fire_at_cycle`).  We model it by its pop-order abstraction: a list that is
kept sorted by non-decreasing `fireAt`; `top`/`pop` is the head, and a heap
push is an ordered insertion (ties keep earlier-inserted events first, which
is one of the deterministic tie orders the heap may realise).  The type-erased
`std::function` callback is modelled by an opaque identifier `callback : Nat`,
which suffices to express that `Deschedule` preserves events (kind, fire
cycle and callback) of every other kind. -/

/-- `Scheduler::EventType` from `scheduler.hpp`. -/
inductive EventType
  | VBLANK | HBLANK | HBLANK_EXIT | OAM_SCAN | LCD_TRANSFER
  | TIMER_OVERFLOW | SERIAL_TRANSFER
  | APU_CHANNEL_1 | APU_CHANNEL_2 | APU_CHANNEL_3 | APU_CHANNEL_4
  | APU_FRAME_SEQUENCER | DMA_TRANSFER | JOYPAD_INTERRUPT
  deriving DecidableEq, Repr

/-- `Scheduler::ScheduledEvent`: kind, absolute fire cycle, callback id. -/
structure ScheduledEvent where
  type : EventType
  fireAt : Nat
  callback : Nat
  deriving DecidableEq, Repr

/-- Scheduler state: the 64-bit cycle clock and the queue in pop order. -/
structure SchedulerState where
  currentCycle : Nat
  queue : List ScheduledEvent
  deriving DecidableEq, Repr

/-- The queue invariant realised by the heap: pop order is non-decreasing
in `fireAt`. -/
def QueueSorted (q : List ScheduledEvent) : Prop :=
  q.Pairwise (fun a b => a.fireAt ≤ b.fireAt)

instance (q : List ScheduledEvent) : Decidable (QueueSorted q) := by
  unfold QueueSorted; infer_instance

/-- Heap `push` at the pop-order abstraction: ordered insertion, new events
going after already-queued events with the same fire cycle. -/
def heapPush (e : ScheduledEvent) : List ScheduledEvent → List ScheduledEvent
  | [] => [e]
  | f :: rest => if f.fireAt ≤ e.fireAt then f :: heapPush e rest else e :: f :: rest

/-- The pop/push loop of `Scheduler::Deschedule`: pop every event off the old
queue and push those of a different kind onto the fresh queue. -/
def descheduleLoop (ty : EventType) : List ScheduledEvent → List ScheduledEvent →
    List ScheduledEvent
  | [], acc => acc
  | e :: rest, acc =>
      descheduleLoop ty rest (if e.type ≠ ty then heapPush e acc else acc)

/-- `Scheduler::Deschedule`: rebuild the queue without events of kind `ty`;
the clock is untouched. -/
def deschedule (ty : EventType) (s : SchedulerState) : SchedulerState :=
  { currentCycle := s.currentCycle, queue := descheduleLoop ty s.queue [] }

/-- `Scheduler::Schedule`: insert `(ty, currentCycle + delta, callback)`. -/
def schedule (ty : EventType) (delta : Nat) (cb : Nat) (s : SchedulerState) :
    SchedulerState :=
  { s with queue := heapPush ⟨ty, s.currentCycle + delta, cb⟩ s.queue }

/-- `Scheduler::Advance`. -/
def advance (cycles : Nat) (s : SchedulerState) : SchedulerState :=
  { s with currentCycle := s.currentCycle + cycles }

theorem heapPush_append (e : ScheduledEvent) (q : List ScheduledEvent)
    (h : ∀ a ∈ q, a.fireAt ≤ e.fireAt) : heapPush e q = q ++ [e] := by
  induction q with
  | nil => rfl
  | cons f rest ih =>
      have hf : f.fireAt ≤ e.fireAt := h f (by simp)
      simp only [heapPush, if_pos hf, List.cons_append]
      rw [ih (fun a ha => h a (by simp [ha]))]

theorem descheduleLoop_eq_filter (ty : EventType) (q acc : List ScheduledEvent)
    (hq : QueueSorted q) (hacc : ∀ a ∈ acc, ∀ b ∈ q, a.fireAt ≤ b.fireAt) :
    descheduleLoop ty q acc = acc ++ q.filter (fun e => e.type ≠ ty) := by
  induction q generalizing acc with
  | nil => simp [descheduleLoop]
  | cons e rest ih =>
      have hrest : QueueSorted rest := (List.pairwise_cons.mp hq).2
      have hle : ∀ b ∈ rest, e.fireAt ≤ b.fireAt := (List.pairwise_cons.mp hq).1
      by_cases hty : e.type = ty
      · rw [show descheduleLoop ty (e :: rest) acc = descheduleLoop ty rest acc by
          simp [descheduleLoop, hty]]
        rw [ih acc hrest (fun a ha b hb => hacc a ha b (by simp [hb]))]
        simp [List.filter_cons, hty]
      · have hpush : heapPush e acc = acc ++ [e] :=
          heapPush_append e acc (fun a ha => hacc a ha e (by simp))
        rw [show descheduleLoop ty (e :: rest) acc = descheduleLoop ty rest (acc ++ [e]) by
          simp [descheduleLoop, hty, hpush]]
        rw [ih (acc ++ [e]) hrest ?_]
        · simp [List.filter_cons, hty]
        · intro a ha b hb
          rcases List.mem_append.mp ha with h1 | h1
          · exact hacc a h1 b (by simp [hb])
          · simp only [List.mem_singleton] at h1
            subst h1; exact hle b hb

/-- C9. `Deschedule(k)` removes exactly the pending events of kind `k`:
every event of another kind survives with the same kind, fire cycle and
callback (the queue becomes the filtered queue, in the same pop order), and
the current cycle counter is unchanged. -/
theorem deschedule_removes_exactly_kind (ty : EventType) (s : SchedulerState)
    (h : QueueSorted s.queue) :
    deschedule ty s =
      { currentCycle := s.currentCycle,
        queue := s.queue.filter (fun e => e.type ≠ ty) } := by
  unfold deschedule
  rw [descheduleLoop_eq_filter ty s.queue [] h (by intro a ha; cases ha)]
  simp

/-- Witness for C9 on a concrete three-event queue: the two `VBLANK` events
are removed, the `TIMER_OVERFLOW` event survives untouched. -/
theorem deschedule_removes_exactly_kind_witness :
    QueueSorted [⟨EventType.VBLANK, 5, 1⟩, ⟨EventType.TIMER_OVERFLOW, 7, 2⟩,
        ⟨EventType.VBLANK, 9, 3⟩] ∧
    deschedule EventType.VBLANK
      ⟨100, [⟨EventType.VBLANK, 5, 1⟩, ⟨EventType.TIMER_OVERFLOW, 7, 2⟩,
        ⟨EventType.VBLANK, 9, 3⟩]⟩ =
      ⟨100, [⟨EventType.TIMER_OVERFLOW, 7, 2⟩]⟩ := by
  refine ⟨by decide, ?_⟩
  rw [deschedule_removes_exactly_kind EventType.VBLANK _ (by decide)]
  decide

/-! ## Timer (`timer.cpp`)

`Timer` state: the 16-bit DIV counter, TIMA/TMA/TAC and the TIMA residual
cycle counter.  The timer's only outward effect is
`Memory::RequestInterrupt(0x04)`, which ORs the mask `0x04` into the IF byte;
the IF byte is threaded through explicitly. -/

structure TimerState where
  divCounter : Nat   -- u16
  tima : Nat         -- u8
  tma : Nat          -- u8
  tac : Nat          -- u8 (only low 3 bits writable)
  timerCounter : Nat -- u32 residual
  deriving DecidableEq, Repr

/-- `Timer::GetTimerFrequency`: period in T-cycles selected by TAC bits 0-1. -/
def getTimerFrequency (tac : Nat) : Nat :=
  match tac % 4 with
  | 0 => 1024
  | 1 => 16
  | 2 => 64
  | _ => 256

theorem getTimerFrequency_pos (tac : Nat) : 0 < getTimerFrequency tac := by
  unfold getTimerFrequency
  have h : tac % 4 < 4 := Nat.mod_lt _ (by norm_num)
  interval_cases h' : tac % 4 <;> simp

/-- The `while (m_timer_counter >= frequency)` loop of `Timer::UpdateTIMA`:
returns the final residual, TIMA and IF byte.  The `0 < freq` conjunct in the
guard records the termination argument; `GetTimerFrequency` always returns a
positive period, so it does not change the modelled behaviour. -/
def updateTIMALoop (freq counter tima tma ifr : Nat) : Nat × Nat × Nat :=
  if h : 0 < freq ∧ freq ≤ counter then
    let counter' := counter - freq
    let tima' := (tima + 1) % 256
    if tima' = 0 then
      updateTIMALoop freq counter' tma tma (ifr ||| 0x04)
    else
      updateTIMALoop freq counter' tima' tma ifr
  else
    (counter, tima, ifr)
termination_by counter
decreasing_by all_goals omega

/-- `Timer::Step`: always advance the 16-bit DIV counter; when TAC bit 2 is
set, feed the cycles to the TIMA residual loop. -/
def timerStep (cycles : Nat) (t : TimerState) (ifr : Nat) : TimerState × Nat :=
  let div' := (t.divCounter + cycles) % 65536
  if t.tac &&& 0x04 ≠ 0 then
    let r := updateTIMALoop (getTimerFrequency t.tac) (t.timerCounter + cycles)
      t.tima t.tma ifr
    ({ divCounter := div', tima := r.2.1, tma := t.tma, tac := t.tac,
       timerCounter := r.1 }, r.2.2)
  else
    ({ t with divCounter := div' }, ifr)

theorem updateTIMALoop_counter (freq counter tima tma ifr : Nat) (hf : 0 < freq) :
    (updateTIMALoop freq counter tima tma ifr).1 = counter % freq := by
  induction counter using Nat.strong_induction_on generalizing tima ifr with
  | _ counter ih =>
    unfold updateTIMALoop
    by_cases h : freq ≤ counter
    · have hlt : counter - freq < counter := by omega
      simp only [hf, h, and_self, dif_pos]
      have hmod : (counter - freq) % freq = counter % freq := by
        conv_rhs => rw [show counter = counter - freq + freq by omega]
        rw [Nat.add_mod_right]
      split
      · rw [ih _ hlt]; exact hmod
      · rw [ih _ hlt]; exact hmod
    · have hng : ¬ (0 < freq ∧ freq ≤ counter) := by omega
      rw [dif_neg hng]
      simp [Nat.mod_eq_of_lt (show counter < freq by omega)]

/-- C5. Timer with TAC bit 2 set: stepping adds the cycles to the residual
counter modulo the selected period (the `while` loop subtracts the period and
increments TIMA until the residual is below it), and in the overflow
scenario TMA=tma, TIMA=0xFF, TAC=0x05 (enabled, period 16), `step(16)`
reloads TIMA from TMA and sets IF bit 2. -/
theorem timer_tima_overflow_reload (tma div ifr : Nat) (_htma : tma < 256) :
    (∀ (t : TimerState) (c i : Nat), t.tac &&& 0x04 ≠ 0 →
      ((timerStep c t i).1).timerCounter =
        (t.timerCounter + c) % getTimerFrequency t.tac) ∧
    timerStep 16 ⟨div, 0xFF, tma, 0x05, 0⟩ ifr =
      (⟨(div + 16) % 65536, tma, tma, 0x05, 0⟩, ifr ||| 0x04) ∧
    (ifr ||| 0x04).testBit 2 = true := by
  refine ⟨?_, ?_, ?_⟩
  · intro t c i _
    simp only [timerStep]
    split
    · simp [updateTIMALoop_counter _ _ _ _ _ (getTimerFrequency_pos t.tac)]
    · omega
  · have hfreq : getTimerFrequency 0x05 = 16 := by decide
    have hloop : updateTIMALoop 16 16 0xFF tma ifr = (0, tma, ifr ||| 0x04) := by
      rw [updateTIMALoop.eq_def]
      norm_num
      rw [updateTIMALoop.eq_def]
      norm_num
    simp only [timerStep]
    rw [if_pos (by decide : ¬ (0x05 : Nat) &&& 0x04 = 0)]
    simp only [hfreq, Nat.zero_add, hloop]
  · have h4 : Nat.testBit 4 2 = true := by decide
    simp [Nat.testBit_or, h4]

/-- Witness for C5 at TMA=0xAB, DIV=0, IF=0. -/
theorem timer_tima_overflow_reload_witness :
    (0xAB : Nat) < 256 ∧
    timerStep 16 ⟨0, 0xFF, 0xAB, 0x05, 0⟩ 0 =
      (⟨16, 0xAB, 0xAB, 0x05, 0⟩, 0x04) := by
  refine ⟨by norm_num, ?_⟩
  have h := (timer_tima_overflow_reload 0xAB 0 0 (by norm_num)).2.1
  simpa using h

/-! ## Picture unit (`ppu.cpp`)

`PPUState` carries the mode/line state machine and the cached LCD registers.
The sprite buffer and the framebuffer are not modelled: `ScanOAM` writes only
the sprite buffer and `RenderScanline` writes only the framebuffer, and no
modelled field (nor any verified property) depends on either.  The IF byte
(`m_io[0x0F]`, reached by the PPU through `Memory::Read/Write(0xFF0F)`) is
threaded through explicitly.  The PPU's own writes to 0xFF41 land in its
registered STAT handler `m_stat = (value & 0xF8) | (m_stat & 0x07)`, which is
the identity because `m_stat` already holds `value`; its writes to 0xFF44
land in the LY handler, which discards them. -/

inductive PPUMode
  | HBLANK | VBLANK | OAM_SCAN | DRAWING
  deriving DecidableEq, Repr

/-- The numeric STAT mode bits of `PPU::Mode`. -/
def modeBits : PPUMode → Nat
  | .HBLANK => 0
  | .VBLANK => 1
  | .OAM_SCAN => 2
  | .DRAWING => 3

structure PPUState where
  mode : PPUMode
  cycleCounter : Nat -- u32
  scanline : Nat     -- u8, the LY register
  frameReady : Bool
  lcdc : Nat
  stat : Nat
  scy : Nat
  scx : Nat
  lyc : Nat
  bgp : Nat
  obp0 : Nat
  obp1 : Nat
  wy : Nat
  wx : Nat
  deriving DecidableEq, Repr

/-- `PPU::SetMode`: set the mode, fold the mode bits into STAT, and raise a
STAT interrupt when the matching STAT enable bit is set. -/
def setMode (m : PPUMode) (p : PPUState) (ifr : Nat) : PPUState × Nat :=
  let stat' := (p.stat &&& 0xFC) ||| modeBits m
  let req : Bool :=
    match m with
    | .HBLANK => stat' &&& 0x08 != 0
    | .VBLANK => stat' &&& 0x10 != 0
    | .OAM_SCAN => stat' &&& 0x20 != 0
    | .DRAWING => false
  ({ p with mode := m, stat := stat' }, if req then ifr ||| 0x02 else ifr)

/-- `PPU::UpdateStatRegister`: set/clear the LYC=LY bit and raise a STAT
interrupt when LYC=LY and its enable bit is set. -/
def updateStatRegister (p : PPUState) (ifr : Nat) : PPUState × Nat :=
  if p.scanline = p.lyc then
    let stat' := p.stat ||| 0x04
    ({ p with stat := stat' }, if stat' &&& 0x40 != 0 then ifr ||| 0x02 else ifr)
  else
    ({ p with stat := p.stat &&& 0xFB }, ifr)

/-- `PPU::Step`: accumulate cycles and run at most one mode transition per
call, exactly as the C++ `switch` does. -/
def ppuStep (cycles : Nat) (p : PPUState) (ifr : Nat) : PPUState × Nat :=
  if p.lcdc &&& 0x80 = 0 then (p, ifr) else
  let p := { p with cycleCounter := p.cycleCounter + cycles }
  match p.mode with
  | .OAM_SCAN =>
      if p.cycleCounter ≥ 80 then
        -- ScanOAM touches only the (unmodelled) sprite buffer
        setMode .DRAWING { p with cycleCounter := p.cycleCounter - 80 } ifr
      else (p, ifr)
  | .DRAWING =>
      if p.cycleCounter ≥ 172 then
        -- RenderScanline touches only the (unmodelled) framebuffer
        setMode .HBLANK { p with cycleCounter := p.cycleCounter - 172 } ifr
      else (p, ifr)
  | .HBLANK =>
      if p.cycleCounter ≥ 204 then
        let p := { p with cycleCounter := p.cycleCounter - 204,
                          scanline := (p.scanline + 1) % 256 }
        let r := updateStatRegister p ifr
        if r.1.scanline ≥ 144 then
          let r2 := setMode .VBLANK r.1 r.2
          ({ r2.1 with frameReady := true }, r2.2 ||| 0x01)
        else setMode .OAM_SCAN r.1 r.2
      else (p, ifr)
  | .VBLANK =>
      if p.cycleCounter ≥ 456 then
        let p := { p with cycleCounter := p.cycleCounter - 456,
                          scanline := (p.scanline + 1) % 256 }
        let r := updateStatRegister p ifr
        if r.1.scanline ≥ 154 then
          setMode .OAM_SCAN { r.1 with scanline := 0 } r.2
        else r
      else (p, ifr)

/-- Iterated single-cycle stepping of the PPU. -/
def ppuIter : Nat → PPUState → Nat → PPUState × Nat
  | 0, p, ifr => (p, ifr)
  | n + 1, p, ifr => ppuIter n (ppuStep 1 p ifr).1 (ppuStep 1 p ifr).2

/-- The (mode, cycle counter, LY) projection of a single-cycle `PPU::Step`
with the LCD enabled.  `ppuStep1_proj` proves that `ppuStep` realises it. -/
def tickProj : PPUMode × Nat × Nat → PPUMode × Nat × Nat
  | (.OAM_SCAN, c, ly) =>
      if c + 1 ≥ 80 then (.DRAWING, c + 1 - 80, ly) else (.OAM_SCAN, c + 1, ly)
  | (.DRAWING, c, ly) =>
      if c + 1 ≥ 172 then (.HBLANK, c + 1 - 172, ly) else (.DRAWING, c + 1, ly)
  | (.HBLANK, c, ly) =>
      if c + 1 ≥ 204 then
        if (ly + 1) % 256 ≥ 144 then (.VBLANK, c + 1 - 204, (ly + 1) % 256)
        else (.OAM_SCAN, c + 1 - 204, (ly + 1) % 256)
      else (.HBLANK, c + 1, ly)
  | (.VBLANK, c, ly) =>
      if c + 1 ≥ 456 then
        if (ly + 1) % 256 ≥ 154 then (.OAM_SCAN, c + 1 - 456, 0)
        else (.VBLANK, c + 1 - 456, (ly + 1) % 256)
      else (.VBLANK, c + 1, ly)

theorem ppuStep1_proj (p : PPUState) (ifr : Nat) (h : ¬ p.lcdc &&& 0x80 = 0) :
    (((ppuStep 1 p ifr).1.mode, (ppuStep 1 p ifr).1.cycleCounter,
      (ppuStep 1 p ifr).1.scanline) =
        tickProj (p.mode, p.cycleCounter, p.scanline)) ∧
    (ppuStep 1 p ifr).1.lcdc = p.lcdc := by
  cases hm : p.mode <;>
    simp only [ppuStep, hm, if_neg h, tickProj, setMode, updateStatRegister] <;>
    split_ifs <;> simp_all

/-- Closed form of (mode, cycle counter, LY) along one visible line that
starts in OAM_SCAN with counter 0 on line `ly`: OAM_SCAN for 80 cycles,
DRAWING for 172, HBLANK for 204, then LY+1 (entering VBLANK at line 144). -/
def lineProj (ly t : Nat) : PPUMode × Nat × Nat :=
  if t < 80 then (.OAM_SCAN, t, ly)
  else if t < 252 then (.DRAWING, t - 80, ly)
  else if t < 456 then (.HBLANK, t - 252, ly)
  else if ly + 1 < 144 then (.OAM_SCAN, 0, ly + 1)
  else (.VBLANK, 0, ly + 1)

/-- Closed form along one VBLANK line `ly ∈ [144, 153]`: a single 456-cycle
VBLANK pass, then LY+1, wrapping to line 0 in OAM_SCAN after line 153. -/
def vblankProj (ly t : Nat) : PPUMode × Nat × Nat :=
  if t < 456 then (.VBLANK, t, ly)
  else if ly + 1 < 154 then (.VBLANK, 0, ly + 1)
  else (.OAM_SCAN, 0, 0)

theorem tickProj_lineProj (ly t : Nat) (hly : ly < 144) (ht : t < 456) :
    tickProj (lineProj ly t) = lineProj ly (t + 1) := by
  have h256 : (ly + 1) % 256 = ly + 1 := Nat.mod_eq_of_lt (by omega)
  unfold lineProj
  split_ifs <;> simp only [tickProj, h256] <;> split_ifs <;>
    (try (exfalso; omega)) <;>
    (rw [Prod.mk.injEq, Prod.mk.injEq]; refine ⟨rfl, by omega, by omega⟩)

theorem tickProj_vblankProj (ly t : Nat) (hlo : 144 ≤ ly) (hhi : ly < 154)
    (ht : t < 456) : tickProj (vblankProj ly t) = vblankProj ly (t + 1) := by
  have h256 : (ly + 1) % 256 = ly + 1 := Nat.mod_eq_of_lt (by omega)
  unfold vblankProj
  split_ifs <;> simp only [tickProj, h256] <;> split_ifs <;>
    (try (exfalso; omega)) <;>
    (rw [Prod.mk.injEq, Prod.mk.injEq]; refine ⟨rfl, by omega, by omega⟩)

theorem ppuIter_proj (n : Nat) (p : PPUState) (ifr : Nat)
    (h : ¬ p.lcdc &&& 0x80 = 0) :
    (((ppuIter n p ifr).1.mode, (ppuIter n p ifr).1.cycleCounter,
      (ppuIter n p ifr).1.scanline) =
        tickProj^[n] (p.mode, p.cycleCounter, p.scanline)) ∧
    (ppuIter n p ifr).1.lcdc = p.lcdc := by
  induction n generalizing p ifr with
  | zero => exact ⟨rfl, rfl⟩
  | succ n ih =>
      have hstep := ppuStep1_proj p ifr h
      have hlcdc : ¬ (ppuStep 1 p ifr).1.lcdc &&& 0x80 = 0 := by
        rw [hstep.2]; exact h
      have ihs := ih (ppuStep 1 p ifr).1 (ppuStep 1 p ifr).2 hlcdc
      have hiter : ppuIter (n + 1) p ifr
          = ppuIter n (ppuStep 1 p ifr).1 (ppuStep 1 p ifr).2 := rfl
      rw [hiter]
      refine ⟨?_, ?_⟩
      · rw [ihs.1, hstep.1, Function.iterate_succ_apply]
      · rw [ihs.2, hstep.2]

theorem tickIter_lineProj (ly : Nat) (hly : ly < 144) :
    ∀ t, t ≤ 456 → tickProj^[t] (PPUMode.OAM_SCAN, 0, ly) = lineProj ly t := by
  intro t
  induction t with
  | zero => intro _; simp [lineProj]
  | succ n ih =>
      intro hn
      rw [Function.iterate_succ_apply', ih (by omega),
        tickProj_lineProj ly n hly (by omega)]

theorem tickIter_vblankProj (ly : Nat) (hlo : 144 ≤ ly) (hhi : ly < 154) :
    ∀ t, t ≤ 456 → tickProj^[t] (PPUMode.VBLANK, 0, ly) = vblankProj ly t := by
  intro t
  induction t with
  | zero => intro _; simp [vblankProj]
  | succ n ih =>
      intro hn
      rw [Function.iterate_succ_apply', ih (by omega),
        tickProj_vblankProj ly n hlo hhi (by omega)]

/-- C3. With LCDC bit 7 set, single-cycle stepping from (OAM_SCAN, counter 0,
LY < 144) follows `lineProj`: OAM_SCAN for cycles 0-79, DRAWING for 80-251,
HBLANK for 252-455 (durations 80, 172, 204), and at cycle 456 LY has advanced
by exactly 1, re-entering OAM_SCAN (or VBLANK at line 144); from (VBLANK,
counter 0, 144 ≤ LY ≤ 153) it follows `vblankProj`: one 456-cycle VBLANK
pass per line, wrapping to LY 0 in OAM_SCAN after line 153. -/
theorem ppu_mode_line_cycle (p : PPUState) (ifr t : Nat)
    (hl : ¬ p.lcdc &&& 0x80 = 0) (ht : t ≤ 456) :
    (p.mode = .OAM_SCAN → p.cycleCounter = 0 → p.scanline < 144 →
      ((ppuIter t p ifr).1.mode, (ppuIter t p ifr).1.cycleCounter,
        (ppuIter t p ifr).1.scanline) = lineProj p.scanline t) ∧
    (p.mode = .VBLANK → p.cycleCounter = 0 → 144 ≤ p.scanline →
      p.scanline < 154 →
      ((ppuIter t p ifr).1.mode, (ppuIter t p ifr).1.cycleCounter,
        (ppuIter t p ifr).1.scanline) = vblankProj p.scanline t) := by
  constructor
  · intro hm hc hly
    rw [(ppuIter_proj t p ifr hl).1, hm, hc, tickIter_lineProj p.scanline hly t ht]
  · intro hm hc hlo hhi
    rw [(ppuIter_proj t p ifr hl).1, hm, hc,
      tickIter_vblankProj p.scanline hlo hhi t ht]

/-- A concrete PPU state: LCD enabled (reset value LCDC=0x91), OAM_SCAN,
counter 0, line 0. -/
def ppuInit : PPUState :=
  { mode := .OAM_SCAN, cycleCounter := 0, scanline := 0, frameReady := false,
    lcdc := 0x91, stat := 0, scy := 0, scx := 0, lyc := 0, bgp := 0xFC,
    obp0 := 0xFF, obp1 := 0xFF, wy := 0, wx := 0 }

/-- Witness for C3: from line 0, 456 single-cycle steps land on line 1 in
OAM_SCAN with counter 0, and cycles 79/80, 251/252 are the mode boundaries. -/
theorem ppu_mode_line_cycle_witness :
    (¬ ppuInit.lcdc &&& 0x80 = 0) ∧ ppuInit.mode = .OAM_SCAN ∧
    ppuInit.scanline < 144 ∧
    ((ppuIter 456 ppuInit 0).1.mode, (ppuIter 456 ppuInit 0).1.cycleCounter,
      (ppuIter 456 ppuInit 0).1.scanline) = (PPUMode.OAM_SCAN, 0, 1) ∧
    (ppuIter 79 ppuInit 0).1.mode = .OAM_SCAN ∧
    (ppuIter 80 ppuInit 0).1.mode = .DRAWING ∧
    (ppuIter 251 ppuInit 0).1.mode = .DRAWING ∧
    (ppuIter 252 ppuInit 0).1.mode = .HBLANK := by
  have h456 := (ppu_mode_line_cycle ppuInit 0 456 (by decide) (by norm_num)).1
    rfl rfl (by decide)
  have h79 := (ppu_mode_line_cycle ppuInit 0 79 (by decide) (by norm_num)).1
    rfl rfl (by decide)
  have h80 := (ppu_mode_line_cycle ppuInit 0 80 (by decide) (by norm_num)).1
    rfl rfl (by decide)
  have h251 := (ppu_mode_line_cycle ppuInit 0 251 (by decide) (by norm_num)).1
    rfl rfl (by decide)
  have h252 := (ppu_mode_line_cycle ppuInit 0 252 (by decide) (by norm_num)).1
    rfl rfl (by decide)
  refine ⟨by decide, rfl, by decide, ?_, ?_, ?_, ?_, ?_⟩
  · rw [h456]; decide
  · have := congrArg Prod.fst h79; simpa using this
  · have := congrArg Prod.fst h80; simpa using this
  · have := congrArg Prod.fst h251; simpa using this
  · have := congrArg Prod.fst h252; simpa using this

/-! ## Memory bus (`memory.cpp`) and the wired system

`Mem` holds the bus-owned regions; the paged fast path of
`InitializePageTables` is `pageTable` (read and write tables are identical:
VRAM, WRAM and echo RAM are fast, everything else is slow).  `GB` is the
system as wired by `GameBoy::GameBoy`: bus, PPU, timer and processor, with
the I/O handler table populated exactly by `PPU::RegisterIOHandlers`
(0xFF40-0xFF45, 0xFF47-0xFF4B) and `Timer::RegisterIOHandlers`
(0xFF04-0xFF07); `GameBoy::RegisterIOHandlers` registers none.  The modelled
configuration has no cartridge loaded (`m_mbc == nullptr`), which no
verified property of the bus needs; the cartridge controllers are modelled
separately below. -/

/-- Target region of a fast-path page. -/
inductive FastRegion
  | vram | wram
  deriving DecidableEq, Repr

/-- `Memory::InitializePageTables`: pages 0x80-0x9F map into VRAM,
0xC0-0xDF into WRAM, and the echo pages 0xE0-0xFD alias WRAM; all other
pages are slow-path (`nullptr`). -/
def pageTable (page : Nat) : Option (FastRegion × Nat) :=
  if 0x80 ≤ page ∧ page ≤ 0x9F then some (.vram, (page - 0x80) * 256)
  else if 0xC0 ≤ page ∧ page ≤ 0xDF then some (.wram, (page - 0xC0) * 256)
  else if 0xE0 ≤ page ∧ page ≤ 0xFD then some (.wram, (page - 0xE0) * 256)
  else none

/-- The bus-owned byte regions and the IE register. -/
structure Mem where
  wram : Nat → Nat
  vram : Nat → Nat
  oam : Nat → Nat
  hram : Nat → Nat
  io : Nat → Nat
  ie : Nat

/-- The processor register file (`CPU::Registers`); the union views are
modelled by separate 8-bit fields plus the 16-bit SP/PC. -/
structure Regs where
  a : Nat
  f : Nat
  b : Nat
  c : Nat
  d : Nat
  e : Nat
  h : Nat
  l : Nat
  sp : Nat
  pc : Nat

/-- The wired system state. -/
structure GB where
  mem : Mem
  ppu : PPUState
  tmr : TimerState
  regs : Regs
  ime : Bool
  halted : Bool
  stopped : Bool

/-- I/O read dispatch (`Memory::ReadIO` with the handlers registered by the
PPU and the timer; every other offset reads the default buffer). -/
def ioRead (s : GB) (off : Nat) : Nat :=
  if off = 0x04 then (s.tmr.divCounter >>> 8) % 256
  else if off = 0x05 then s.tmr.tima
  else if off = 0x06 then s.tmr.tma
  else if off = 0x07 then s.tmr.tac ||| 0xF8
  else if off = 0x40 then s.ppu.lcdc
  else if off = 0x41 then s.ppu.stat
  else if off = 0x42 then s.ppu.scy
  else if off = 0x43 then s.ppu.scx
  else if off = 0x44 then s.ppu.scanline
  else if off = 0x45 then s.ppu.lyc
  else if off = 0x47 then s.ppu.bgp
  else if off = 0x48 then s.ppu.obp0
  else if off = 0x49 then s.ppu.obp1
  else if off = 0x4A then s.ppu.wy
  else if off = 0x4B then s.ppu.wx
  else s.mem.io off

/-- I/O write dispatch (`Memory::WriteIO` with the registered handlers;
note the LY handler at 0xFF44 discards the write). -/
def ioWrite (s : GB) (off v : Nat) : GB :=
  if off = 0x04 then { s with tmr := { s.tmr with divCounter := 0 } }
  else if off = 0x05 then
    { s with tmr := { s.tmr with tima := v, timerCounter := 0 } }
  else if off = 0x06 then { s with tmr := { s.tmr with tma := v } }
  else if off = 0x07 then
    let tacNew := v &&& 0x07
    let counterNew : Nat :=
      if (s.tmr.tac &&& 0x04 != 0) ≠ (tacNew &&& 0x04 != 0) then 0
      else s.tmr.timerCounter
    { s with tmr := { s.tmr with tac := tacNew, timerCounter := counterNew } }
  else if off = 0x40 then { s with ppu := { s.ppu with lcdc := v } }
  else if off = 0x41 then
    { s with ppu := { s.ppu with stat := (v &&& 0xF8) ||| (s.ppu.stat &&& 0x07) } }
  else if off = 0x42 then { s with ppu := { s.ppu with scy := v } }
  else if off = 0x43 then { s with ppu := { s.ppu with scx := v } }
  else if off = 0x44 then s
  else if off = 0x45 then { s with ppu := { s.ppu with lyc := v } }
  else if off = 0x47 then { s with ppu := { s.ppu with bgp := v } }
  else if off = 0x48 then { s with ppu := { s.ppu with obp0 := v } }
  else if off = 0x49 then { s with ppu := { s.ppu with obp1 := v } }
  else if off = 0x4A then { s with ppu := { s.ppu with wy := v } }
  else if off = 0x4B then { s with ppu := { s.ppu with wx := v } }
  else { s with mem := { s.mem with io := upd s.mem.io off v } }

/-- `Memory::Read`: paged fast path, then the slow-path range dispatch. -/
def readBus (s : GB) (addr : Nat) : Nat :=
  match pageTable (addr / 256) with
  | some (.vram, base) => s.mem.vram (base + addr % 256)
  | some (.wram, base) => s.mem.wram (base + addr % 256)
  | none =>
      if addr ≤ 0x7FFF then 0xFF
      else if 0xA000 ≤ addr ∧ addr ≤ 0xBFFF then 0xFF
      else if 0xFE00 ≤ addr ∧ addr ≤ 0xFE9F then s.mem.oam (addr - 0xFE00)
      else if 0xFEA0 ≤ addr ∧ addr ≤ 0xFEFF then 0xFF
      else if 0xFF00 ≤ addr ∧ addr ≤ 0xFF7F then ioRead s (addr - 0xFF00)
      else if 0xFF80 ≤ addr ∧ addr ≤ 0xFFFE then s.mem.hram (addr - 0xFF80)
      else if addr = 0xFFFF then s.mem.ie
      else 0xFF

/-- `Memory::Write`. -/
def writeBus (s : GB) (addr v : Nat) : GB :=
  match pageTable (addr / 256) with
  | some (.vram, base) =>
      { s with mem := { s.mem with vram := upd s.mem.vram (base + addr % 256) v } }
  | some (.wram, base) =>
      { s with mem := { s.mem with wram := upd s.mem.wram (base + addr % 256) v } }
  | none =>
      if addr ≤ 0x7FFF then s
      else if 0xA000 ≤ addr ∧ addr ≤ 0xBFFF then s
      else if 0xFE00 ≤ addr ∧ addr ≤ 0xFE9F then
        { s with mem := { s.mem with oam := upd s.mem.oam (addr - 0xFE00) v } }
      else if 0xFEA0 ≤ addr ∧ addr ≤ 0xFEFF then s
      else if 0xFF00 ≤ addr ∧ addr ≤ 0xFF7F then ioWrite s (addr - 0xFF00) v
      else if 0xFF80 ≤ addr ∧ addr ≤ 0xFFFE then
        { s with mem := { s.mem with hram := upd s.mem.hram (addr - 0xFF80) v } }
      else if addr = 0xFFFF then { s with mem := { s.mem with ie := v } }
      else s

/-- `Memory::Read16` (little endian; the `address + 1` wraps as u16). -/
def read16 (s : GB) (addr : Nat) : Nat :=
  (readBus s ((addr + 1) % 65536) <<< 8) ||| readBus s addr

/-- `Memory::Write16` (low byte first). -/
def write16 (s : GB) (addr v : Nat) : GB :=
  writeBus (writeBus s addr (v % 256)) ((addr + 1) % 65536) ((v >>> 8) % 256)

/-- Slow-path read of HRAM. -/
theorem readBus_hram (t : GB) (a : Nat) (h1 : 0xFF80 ≤ a) (h2 : a ≤ 0xFFFE) :
    readBus t a = t.mem.hram (a - 0xFF80) := by
  have hp : pageTable (a / 256) = none := by
    unfold pageTable
    rw [if_neg (by omega), if_neg (by omega), if_neg (by omega)]
  simp only [readBus, hp]
  rw [if_neg (by omega), if_neg (by omega), if_neg (by omega),
    if_neg (by omega), if_neg (by omega), if_pos (by omega)]

/-- Slow-path read of OAM. -/
theorem readBus_oam (t : GB) (a : Nat) (h1 : 0xFE00 ≤ a) (h2 : a ≤ 0xFE9F) :
    readBus t a = t.mem.oam (a - 0xFE00) := by
  have hp : pageTable (a / 256) = none := by
    unfold pageTable
    rw [if_neg (by omega), if_neg (by omega), if_neg (by omega)]
  simp only [readBus, hp]
  rw [if_neg (by omega), if_neg (by omega), if_pos (by omega)]

/-- C4. For every address in WRAM, VRAM, HRAM or OAM and every byte value,
a bus write followed by a bus read of the same address returns that value;
WRAM/VRAM go through the paged fast path, OAM/HRAM through the slow path,
and no I/O handler can apply at these addresses (handlers live only at
0xFF00-0xFF7F). -/
theorem ram_write_read_roundtrip (s : GB) (a v : Nat)
    (ha : (0xC000 ≤ a ∧ a ≤ 0xDFFF) ∨ (0x8000 ≤ a ∧ a ≤ 0x9FFF) ∨
          (0xFF80 ≤ a ∧ a ≤ 0xFFFE) ∨ (0xFE00 ≤ a ∧ a ≤ 0xFE9F))
    (_hv : v < 256) :
    readBus (writeBus s a v) a = v := by
  rcases ha with ⟨h1, h2⟩ | ⟨h1, h2⟩ | ⟨h1, h2⟩ | ⟨h1, h2⟩
  · have hp : pageTable (a / 256) = some (.wram, (a / 256 - 0xC0) * 256) := by
      unfold pageTable
      rw [if_neg (by omega), if_pos (by omega)]
    simp only [writeBus, readBus, hp]
    exact upd_same _ _ _
  · have hp : pageTable (a / 256) = some (.vram, (a / 256 - 0x80) * 256) := by
      unfold pageTable
      rw [if_pos (by omega)]
    simp only [writeBus, readBus, hp]
    exact upd_same _ _ _
  · have hp : pageTable (a / 256) = none := by
      unfold pageTable
      rw [if_neg (by omega), if_neg (by omega), if_neg (by omega)]
    have hw : writeBus s a v =
        { s with mem := { s.mem with hram := upd s.mem.hram (a - 0xFF80) v } } := by
      simp only [writeBus, hp]
      rw [if_neg (by omega), if_neg (by omega), if_neg (by omega),
        if_neg (by omega), if_neg (by omega), if_pos (by omega)]
    rw [hw, readBus_hram _ a h1 h2]
    simp only [upd_same]
  · have hp : pageTable (a / 256) = none := by
      unfold pageTable
      rw [if_neg (by omega), if_neg (by omega), if_neg (by omega)]
    have hw : writeBus s a v =
        { s with mem := { s.mem with oam := upd s.mem.oam (a - 0xFE00) v } } := by
      simp only [writeBus, hp]
      rw [if_neg (by omega), if_neg (by omega), if_pos (by omega)]
    rw [hw, readBus_oam _ a h1 h2]
    simp only [upd_same]

/-- All-zero bus regions. -/
def mem0 : Mem := ⟨fun _ => 0, fun _ => 0, fun _ => 0, fun _ => 0, fun _ => 0, 0⟩

/-- The post-boot register file of `CPU::Reset` (AF=0x01B0, BC=0x0013,
DE=0x00D8, HL=0x014D, SP=0xFFFE, PC=0x0100). -/
def regs0 : Regs := ⟨0x01, 0xB0, 0x00, 0x13, 0x00, 0xD8, 0x01, 0x4D, 0xFFFE, 0x0100⟩

/-- Reset timer state. -/
def tmr0 : TimerState := ⟨0, 0, 0, 0, 0⟩

/-- A concrete freshly-reset system. -/
def gb0 : GB := ⟨mem0, ppuInit, tmr0, regs0, false, false, false⟩

/-- Witness for C4 at four concrete addresses, one per region. -/
theorem ram_write_read_roundtrip_witness :
    ((0xC000 ≤ 0xC123 ∧ (0xC123 : Nat) ≤ 0xDFFF) ∧ (0xAB : Nat) < 256 ∧
      readBus (writeBus gb0 0xC123 0xAB) 0xC123 = 0xAB) ∧
    readBus (writeBus gb0 0x9A55 0x7F) 0x9A55 = 0x7F ∧
    readBus (writeBus gb0 0xFFFE 0x01) 0xFFFE = 0x01 ∧
    readBus (writeBus gb0 0xFE9F 0x42) 0xFE9F = 0x42 := by
  refine ⟨⟨by norm_num, by norm_num, ?_⟩, ?_, ?_, ?_⟩
  · exact ram_write_read_roundtrip gb0 0xC123 0xAB (Or.inl (by norm_num)) (by norm_num)
  · exact ram_write_read_roundtrip gb0 0x9A55 0x7F
      (Or.inr (Or.inl (by norm_num))) (by norm_num)
  · exact ram_write_read_roundtrip gb0 0xFFFE 0x01
      (Or.inr (Or.inr (Or.inl (by norm_num)))) (by norm_num)
  · exact ram_write_read_roundtrip gb0 0xFE9F 0x42
      (Or.inr (Or.inr (Or.inr (by norm_num)))) (by norm_num)

/-- C10. A bus write to 0xFF44 (LY) is discarded by the registered handler:
the system state is unchanged, and a subsequent read of 0xFF44 still
returns the picture unit's line counter. -/
theorem ly_write_discarded (s : GB) (v : Nat) :
    writeBus s 0xFF44 v = s ∧
    readBus (writeBus s 0xFF44 v) 0xFF44 = s.ppu.scanline := by
  have hp : pageTable (0xFF44 / 256) = none := by decide
  have hw : writeBus s 0xFF44 v = s := by
    simp only [writeBus, hp]
    rw [if_neg (by norm_num), if_neg (by norm_num), if_neg (by norm_num),
      if_neg (by norm_num), if_pos (by norm_num)]
    show ioWrite s (0xFF44 - 0xFF00) v = s
    norm_num [ioWrite]
  refine ⟨hw, ?_⟩
  rw [hw]
  simp only [readBus, hp]
  rw [if_neg (by norm_num), if_neg (by norm_num), if_neg (by norm_num),
    if_neg (by norm_num), if_pos (by norm_num)]
  show ioRead s (0xFF44 - 0xFF00) = s.ppu.scanline
  norm_num [ioRead]

/-- C7 (amended). When LCDC bit 7 is clear, `PPU::Step` is a no-op on the
whole picture-unit state and the IF byte; a bus read of 0xFF44 returns the
frozen line counter (not necessarily 0); and re-enabling the LCD through a
bus write to 0xFF40 changes only the cached LCDC byte, so execution resumes
from the frozen mode and line. -/
theorem ppu_disabled_frozen (p : PPUState) (ifr c : Nat)
    (h : p.lcdc &&& 0x80 = 0) :
    ppuStep c p ifr = (p, ifr) ∧
    (∀ s : GB, s.ppu = p → readBus s 0xFF44 = p.scanline) ∧
    (∀ (s : GB) (v : Nat), s.ppu = p →
      (writeBus s 0xFF40 v).ppu.mode = p.mode ∧
      (writeBus s 0xFF40 v).ppu.scanline = p.scanline ∧
      (writeBus s 0xFF40 v).ppu.cycleCounter = p.cycleCounter ∧
      (writeBus s 0xFF40 v).ppu.lcdc = v) := by
  have hp : pageTable (0xFF44 / 256) = none := by decide
  have hp40 : pageTable (0xFF40 / 256) = none := by decide
  refine ⟨by simp [ppuStep, h], ?_, ?_⟩
  · intro s hs
    simp only [readBus, hp]
    rw [if_neg (by norm_num), if_neg (by norm_num), if_neg (by norm_num),
      if_neg (by norm_num), if_pos (by norm_num)]
    show ioRead s (0xFF44 - 0xFF00) = p.scanline
    norm_num [ioRead, hs]
  · intro s v hs
    have hw : writeBus s 0xFF40 v = { s with ppu := { s.ppu with lcdc := v } } := by
      simp only [writeBus, hp40]
      rw [if_neg (by norm_num), if_neg (by norm_num), if_neg (by norm_num),
        if_neg (by norm_num), if_pos (by norm_num)]
      show ioWrite s (0xFF40 - 0xFF00) v = _
      norm_num [ioWrite]
    rw [hw]
    simp [hs]

/-- A picture-unit state frozen mid-VBLANK on line 150 with the LCD
disabled (LCDC=0x11: bit 7 clear). -/
def ppuFrozen : PPUState :=
  { mode := .VBLANK, cycleCounter := 0, scanline := 150, frameReady := false,
    lcdc := 0x11, stat := 0x01, scy := 0, scx := 0, lyc := 0, bgp := 0xFC,
    obp0 := 0xFF, obp1 := 0xFF, wy := 0, wx := 0 }

/-- A system whose picture unit is `ppuFrozen`. -/
def gbFrozen : GB := ⟨mem0, ppuFrozen, tmr0, regs0, false, false, false⟩

/-- Counterexample to C7 as stated: with the LCD disabled mid-frame,
stepping is indeed a no-op, but LY reads back as the frozen line 150 (not
0) and the STAT mode bits still read VBLANK (1), not HBLANK (0). -/
theorem ppu_disabled_ly_not_zero :
    ppuFrozen.lcdc &&& 0x80 = 0 ∧
    ppuStep 456 ppuFrozen 0 = (ppuFrozen, 0) ∧
    readBus gbFrozen 0xFF44 = 150 ∧ (150 : Nat) ≠ 0 ∧
    readBus gbFrozen 0xFF41 &&& 0x03 = 1 := by
  refine ⟨by decide, by decide, by decide, by decide, by decide⟩

/-- Witness for the amended C7 at the concrete frozen state. -/
theorem ppu_disabled_frozen_witness :
    ppuFrozen.lcdc &&& 0x80 = 0 ∧
    ppuStep 456 ppuFrozen 0 = (ppuFrozen, 0) ∧
    readBus gbFrozen 0xFF44 = ppuFrozen.scanline ∧
    (writeBus gbFrozen 0xFF40 0x91).ppu.mode = ppuFrozen.mode ∧
    (writeBus gbFrozen 0xFF40 0x91).ppu.scanline = ppuFrozen.scanline ∧
    (writeBus gbFrozen 0xFF40 0x91).ppu.lcdc = 0x91 := by
  have h := ppu_disabled_frozen ppuFrozen 0 456 (by decide)
  have h2 := h.2.1 gbFrozen rfl
  have h3 := h.2.2 gbFrozen 0x91 rfl
  exact ⟨by decide, h.1, h2, h3.1, h3.2.1, h3.2.2.2⟩

/-! ## Processor (`cpu.cpp`, `cpu.hpp`)

The embedding covers `CPU::Step`'s halt/wake logic, `ServiceInterrupts`,
the fetch/stack helpers (each of which adds its memory cycles to the
running `m_cycles` counter, threaded here explicitly), and the
jump/call/return handlers.  `execOp` models the decode for exactly the
opcodes the verified properties exercise; every other opcode is outside the
model's domain and yields `none`. -/

/-- `CPU::GetFlag` (FLAG_C=0x10, FLAG_H=0x20, FLAG_N=0x40, FLAG_Z=0x80). -/
def getFlag (f flag : Nat) : Bool := f &&& flag != 0

/-- Replace the program counter. -/
def setPC (s : GB) (pc : Nat) : GB := { s with regs := { s.regs with pc := pc } }

/-- Replace the stack pointer. -/
def setSP (s : GB) (sp : Nat) : GB := { s with regs := { s.regs with sp := sp } }

/-- `CPU::FetchByte`: read at PC (4 cycles), increment PC (u16 wrap).
Returns (value, state, cycles). -/
def fetchByte (s : GB) (cyc : Nat) : Nat × GB × Nat :=
  (readBus s s.regs.pc, setPC s ((s.regs.pc + 1) % 65536), cyc + 4)

/-- `CPU::FetchWord`: read 16 bits at PC (8 cycles), advance PC by 2. -/
def fetchWord (s : GB) (cyc : Nat) : Nat × GB × Nat :=
  (read16 s s.regs.pc, setPC s ((s.regs.pc + 2) % 65536), cyc + 8)

/-- `CPU::Push`: SP -= 2 (u16 wrap), then a 16-bit bus write (8 cycles). -/
def pushC (s : GB) (cyc v : Nat) : GB × Nat :=
  let sp2 := (s.regs.sp + 65534) % 65536
  (write16 (setSP s sp2) sp2 v, cyc + 8)

/-- `CPU::Pop`: 16-bit bus read at SP (8 cycles), then SP += 2. -/
def popC (s : GB) (cyc : Nat) : Nat × GB × Nat :=
  (read16 s s.regs.sp, setSP s ((s.regs.sp + 2) % 65536), cyc + 8)

/-- The `for (i = 0; i < 5; i++)` scan of `ServiceInterrupts`: the lowest
set bit among bits 0-4, if any. -/
def lowestTriggeredBit (trig : Nat) : Option Nat :=
  if trig &&& 0x01 ≠ 0 then some 0
  else if trig &&& 0x02 ≠ 0 then some 1
  else if trig &&& 0x04 ≠ 0 then some 2
  else if trig &&& 0x08 ≠ 0 then some 3
  else if trig &&& 0x10 ≠ 0 then some 4
  else none

/-- `CPU::ServiceInterrupts`: when IME is set and `IF & IE` has a bit among
0-4, clear IME, clear that IF bit, push PC, jump to `0x40 + bit*8`, and add
20 cycles on top of the 8 cycles `Push`'s 16-bit write records. -/
def serviceInterrupts (s : GB) (cyc : Nat) : GB × Nat :=
  if !s.ime then (s, cyc)
  else
    let ifReg := readBus s 0xFF0F
    let ieReg := readBus s 0xFFFF
    let trig := ifReg &&& ieReg
    if trig = 0 then (s, cyc)
    else
      match lowestTriggeredBit trig with
      | none => (s, cyc)
      | some i =>
          let s1 := { s with ime := false }
          let s2 := writeBus s1 0xFF0F (ifReg &&& (0xFF ^^^ (1 <<< i)))
          let r := pushC s2 cyc s2.regs.pc
          (setPC r.1 (0x40 + i * 8), r.2 + 20)

/-- 16-bit sign extension of a byte offset (for `pc += (s8)offset`). -/
def signExt8 (b : Nat) : Nat := if b < 128 then b else b + 0xFF00

/-- `CPU::OP_JP_nn`. -/
def opJPnn (s : GB) (cyc : Nat) : GB × Nat :=
  let r := fetchWord s cyc
  (setPC r.2.1 r.1, r.2.2 + 4)

/-- `CPU::OP_JP_cc_nn`: fetch the address, then take the branch only when
the condition holds (+4 cycles), then +4 cycles unconditionally. -/
def opJPccnn (cond : Bool) (s : GB) (cyc : Nat) : GB × Nat :=
  let r := fetchWord s cyc
  if cond then (setPC r.2.1 r.1, r.2.2 + 4 + 4) else (r.2.1, r.2.2 + 4)

/-- `CPU::OP_JR_e`. -/
def opJRe (s : GB) (cyc : Nat) : GB × Nat :=
  let r := fetchByte s cyc
  (setPC r.2.1 ((r.2.1.regs.pc + signExt8 r.1) % 65536), r.2.2 + 4)

/-- `CPU::OP_JR_cc_e`. -/
def opJRcce (cond : Bool) (s : GB) (cyc : Nat) : GB × Nat :=
  let r := fetchByte s cyc
  if cond then
    (setPC r.2.1 ((r.2.1.regs.pc + signExt8 r.1) % 65536), r.2.2 + 4 + 4)
  else (r.2.1, r.2.2 + 4)

/-- `CPU::OP_CALL_nn`. -/
def opCALLnn (s : GB) (cyc : Nat) : GB × Nat :=
  let r := fetchWord s cyc
  let p := pushC r.2.1 r.2.2 r.2.1.regs.pc
  (setPC p.1 r.1, p.2 + 4)

/-- `CPU::OP_CALL_cc_nn`. -/
def opCALLccnn (cond : Bool) (s : GB) (cyc : Nat) : GB × Nat :=
  let r := fetchWord s cyc
  if cond then
    let p := pushC r.2.1 r.2.2 r.2.1.regs.pc
    (setPC p.1 r.1, p.2 + 4 + 4)
  else (r.2.1, r.2.2 + 4)

/-- `CPU::OP_RET`. -/
def opRET (s : GB) (cyc : Nat) : GB × Nat :=
  let p := popC s cyc
  (setPC p.2.1 p.1, p.2.2 + 4)

/-- `CPU::OP_RET_cc`: when taken, `Pop` records 8 cycles and the handler
adds 12 more, then +8 unconditionally. -/
def opRETcc (cond : Bool) (s : GB) (cyc : Nat) : GB × Nat :=
  if cond then
    let p := popC s cyc
    (setPC p.2.1 p.1, p.2.2 + 12 + 8)
  else (s, cyc + 8)

/-- `CPU::OP_NOP`. -/
def opNOP (s : GB) (cyc : Nat) : GB × Nat := (s, cyc + 4)

/-- The decode of `ExecuteInstruction` restricted to the modelled opcodes
(NOP, JP, JR, CALL, RET and their conditional forms, with the conditions
wired from the Z and C flags exactly as in the dispatch table); `none`
for any opcode outside the modelled subset. -/
def execOp (op : Nat) (s : GB) (cyc : Nat) : Option (GB × Nat) :=
  let z := getFlag s.regs.f 0x80
  let cf := getFlag s.regs.f 0x10
  match op with
  | 0x00 => some (opNOP s cyc)
  | 0xC3 => some (opJPnn s cyc)
  | 0xC2 => some (opJPccnn (!z) s cyc)
  | 0xCA => some (opJPccnn z s cyc)
  | 0xD2 => some (opJPccnn (!cf) s cyc)
  | 0xDA => some (opJPccnn cf s cyc)
  | 0x18 => some (opJRe s cyc)
  | 0x20 => some (opJRcce (!z) s cyc)
  | 0x28 => some (opJRcce z s cyc)
  | 0x30 => some (opJRcce (!cf) s cyc)
  | 0x38 => some (opJRcce cf s cyc)
  | 0xCD => some (opCALLnn s cyc)
  | 0xC4 => some (opCALLccnn (!z) s cyc)
  | 0xCC => some (opCALLccnn z s cyc)
  | 0xD4 => some (opCALLccnn (!cf) s cyc)
  | 0xDC => some (opCALLccnn cf s cyc)
  | 0xC9 => some (opRET s cyc)
  | 0xC0 => some (opRETcc (!z) s cyc)
  | 0xC8 => some (opRETcc z s cyc)
  | 0xD0 => some (opRETcc (!cf) s cyc)
  | 0xD8 => some (opRETcc cf s cyc)
  | _ => none

/-- The fetch/execute tail of `CPU::Step` (after the halt check): service
interrupts, fetch the opcode at PC, dispatch. -/
def stepFetchExec (s : GB) : Option (GB × Nat) :=
  let r := serviceInterrupts s 0
  let f := fetchByte r.1 r.2
  execOp f.1 f.2.1 f.2.2

/-- `CPU::Step`: while halted, wake only when `IF & IE != 0` (all 8 bits),
otherwise consume 4 cycles and return. -/
def cpuStep (s : GB) : Option (GB × Nat) :=
  if s.halted then
    if readBus s 0xFF0F &&& readBus s 0xFFFF ≠ 0 then
      stepFetchExec { s with halted := false }
    else some (s, 4)
  else stepFetchExec s

/-- A system about to execute a small program at PC=0xC000 (WRAM), with
SP=0xD000, the given F register, IME off and no pending interrupts. -/
def gbProg (bytes : List Nat) (fReg : Nat) : GB :=
  { mem := { mem0 with wram := fun i => bytes.getD i 0 },
    ppu := ppuInit, tmr := tmr0,
    regs := { regs0 with pc := 0xC000, sp := 0xD000, f := fReg },
    ime := false, halted := false, stopped := false }

/-- C1 (evaluation). The cycle counts `CPU::Step` actually returns for the
conditional branches, taken (F=0x00 under an NZ/NC condition) and not taken
(F=0x80): JP cc 20/16, JR cc 16/12, CALL cc 28/16, RET cc 32/12 — not the
standard 16/12, 12/8, 24/12, 20/8 the specification requires — while the
unconditional JP/JR/CALL/RET do return the standard 16/12/24/16. -/
theorem branch_cycle_counts_actual :
    (cpuStep (gbProg [0xC2, 0x00, 0xD0] 0x00)).map Prod.snd = some 20 ∧
    (cpuStep (gbProg [0xC2, 0x00, 0xD0] 0x80)).map Prod.snd = some 16 ∧
    (cpuStep (gbProg [0x20, 0x05] 0x00)).map Prod.snd = some 16 ∧
    (cpuStep (gbProg [0x20, 0x05] 0x80)).map Prod.snd = some 12 ∧
    (cpuStep (gbProg [0xC4, 0x00, 0xD0] 0x00)).map Prod.snd = some 28 ∧
    (cpuStep (gbProg [0xC4, 0x00, 0xD0] 0x80)).map Prod.snd = some 16 ∧
    (cpuStep (gbProg [0xC0] 0x00)).map Prod.snd = some 32 ∧
    (cpuStep (gbProg [0xC0] 0x80)).map Prod.snd = some 12 ∧
    (cpuStep (gbProg [0xC3, 0x00, 0xD0] 0x00)).map Prod.snd = some 16 ∧
    (cpuStep (gbProg [0x18, 0x05] 0x00)).map Prod.snd = some 12 ∧
    (cpuStep (gbProg [0xCD, 0x00, 0xD0] 0x00)).map Prod.snd = some 24 ∧
    (cpuStep (gbProg [0xC9] 0x00)).map Prod.snd = some 16 ∧
    (cpuStep (gbProg [0xC2, 0x00, 0xD0] 0x00)).map (fun r => r.1.regs.pc)
      = some 0xD000 := by
  decide

/-- A system with IME on and VBlank (bit 0) pending and enabled. -/
def gbIntr : GB :=
  { mem := { mem0 with io := fun i => if i = 0x0F then 0x01 else 0, ie := 0x01 },
    ppu := ppuInit, tmr := tmr0,
    regs := { regs0 with pc := 0x1234, sp := 0xD000 },
    ime := true, halted := false, stopped := false }

/-- A system with IME on, IF=0x06 (LCD and Timer pending), IE=0xFF. -/
def gbIntr2 : GB :=
  { mem := { mem0 with io := fun i => if i = 0x0F then 0x06 else 0, ie := 0xFF },
    ppu := ppuInit, tmr := tmr0,
    regs := { regs0 with pc := 0x1234, sp := 0xD000 },
    ime := true, halted := false, stopped := false }

/-- C2 (evaluation). `ServiceInterrupts` on a pending enabled interrupt:
IME is cleared, exactly the lowest pending IF bit is cleared, PC is pushed
(SP drops by 2 and the old PC is on the stack), PC becomes 0x40 + bit*8 —
but the service adds 28 cycles (the explicit 20 plus 8 recorded by `Push`'s
16-bit write), not the 20 the specification and the code's own comment
state. -/
theorem interrupt_service_effects :
    (serviceInterrupts gbIntr 0).2 = 28 ∧
    (serviceInterrupts gbIntr 0).1.ime = false ∧
    readBus (serviceInterrupts gbIntr 0).1 0xFF0F = 0x00 ∧
    (serviceInterrupts gbIntr 0).1.regs.pc = 0x0040 ∧
    (serviceInterrupts gbIntr 0).1.regs.sp = 0xCFFE ∧
    read16 (serviceInterrupts gbIntr 0).1 0xCFFE = 0x1234 ∧
    (serviceInterrupts gbIntr2 0).2 = 28 ∧
    (serviceInterrupts gbIntr2 0).1.regs.pc = 0x0048 ∧
    readBus (serviceInterrupts gbIntr2 0).1 0xFF0F = 0x04 := by
  decide

/-- `Memory::Read` depends only on the bus regions and the component
registers reachable through I/O handlers. -/
theorem readBus_congr (t s : GB) (hm : t.mem = s.mem) (hp : t.ppu = s.ppu)
    (ht : t.tmr = s.tmr) (addr : Nat) : readBus t addr = readBus s addr := by
  simp only [readBus, ioRead, hm, hp, ht]

/-- C6 (amended). While halted with `IF & IE = 0` (all 8 bits — the code
does not mask with 0x1F), `CPU::Step` returns exactly 4 cycles and leaves
the state untouched; as soon as `IF & IE ≠ 0` the halted latch is cleared
and execution resumes (shown here resuming into a NOP with IME clear, so no
service occurs: 8 cycles, PC+1). -/
theorem halt_four_cycles_until_pending (s : GB) :
    (s.halted = true → readBus s 0xFF0F &&& readBus s 0xFFFF = 0 →
      cpuStep s = some (s, 4)) ∧
    (s.halted = true → ¬ readBus s 0xFF0F &&& readBus s 0xFFFF = 0 →
      s.ime = false → readBus s s.regs.pc = 0x00 →
      cpuStep s = some (setPC { s with halted := false }
        ((s.regs.pc + 1) % 65536), 8)) := by
  constructor
  · intro hh h0
    simp [cpuStep, hh, h0]
  · intro hh hnz hime hop
    have h1 : cpuStep s = stepFetchExec { s with halted := false } := by
      simp [cpuStep, hh, hnz]
    have hsvc : serviceInterrupts { s with halted := false } 0 =
        ({ s with halted := false }, 0) := by
      simp only [serviceInterrupts]
      rw [show ({ s with halted := false } : GB).ime = s.ime from rfl, hime]
      rfl
    have hrd : readBus { s with halted := false } s.regs.pc = 0x00 := by
      rw [readBus_congr ({ s with halted := false }) s rfl rfl rfl]
      exact hop
    rw [h1]
    simp only [stepFetchExec, hsvc]
    simp only [fetchByte,
      show ({ s with halted := false } : GB).regs.pc = s.regs.pc from rfl, hrd]
    simp [execOp, opNOP]

/-- A halted system whose only pending/enabled bits are the unused upper
bits: IF = IE = 0x20, so `IF & IE & 0x1F = 0` but `IF & IE ≠ 0`. -/
def gbHaltUpper : GB :=
  { mem := { mem0 with io := fun i => if i = 0x0F then 0x20 else 0, ie := 0x20 },
    ppu := ppuInit, tmr := tmr0,
    regs := { regs0 with pc := 0xC000, sp := 0xD000 },
    ime := false, halted := true, stopped := false }

/-- Counterexample to C6 as stated: with `IF & IE & 0x1F = 0` but a common
upper bit (IF=IE=0x20), the processor does NOT stay halted consuming 4
cycles — it wakes (halted becomes false) and executes the next instruction
(8 cycles for the NOP at PC), because the wake test is `IF & IE != 0`
without the 0x1F mask. -/
theorem halt_wakes_on_unserviceable_bits :
    readBus gbHaltUpper 0xFF0F &&& readBus gbHaltUpper 0xFFFF &&& 0x1F = 0 ∧
    gbHaltUpper.halted = true ∧
    (cpuStep gbHaltUpper).map (fun r => (r.1.halted, r.2)) = some (false, 8) ∧
    ¬ (cpuStep gbHaltUpper).map (fun r => (r.1.halted, r.2)) = some (true, 4) := by
  decide

/-- A halted system with no pending interrupts at all. -/
def gbHaltIdle : GB :=
  { mem := mem0, ppu := ppuInit, tmr := tmr0,
    regs := { regs0 with pc := 0xC000, sp := 0xD000 },
    ime := false, halted := true, stopped := false }

/-- Witness for the amended C6 at concrete states: 4 cycles and no state
change while `IF & IE = 0`; wake into the NOP when IF=IE=0x20. -/
theorem halt_four_cycles_until_pending_witness :
    cpuStep gbHaltIdle = some (gbHaltIdle, 4) ∧
    cpuStep gbHaltUpper =
      some (setPC { gbHaltUpper with halted := false } 0xC001, 8) := by
  constructor
  · exact (halt_four_cycles_until_pending gbHaltIdle).1 rfl (by decide)
  · have h := (halt_four_cycles_until_pending gbHaltUpper).2 rfl (by decide)
      rfl (by decide)
    simpa using h

/-! ## Cartridge controllers (`mbc.cpp`)

The ROM image is a byte list.  A controller read returns `Option Nat`:
`some v` for a defined result and `none` when the C++ indexes the ROM
vector out of bounds with the unchecked `m_rom[...]` (undefined behaviour);
the bounds-checked paths always return `some`. -/

inductive MBCKind
  | mbc0 | mbc1 | mbc3 | mbc5
  deriving DecidableEq, Repr

/-- `MBC::Create`: cartridge-type byte to controller (0x00 → MBC0,
0x01-0x03 → MBC1, 0x0F-0x13 → MBC3, 0x19-0x1E → MBC5, otherwise rejected). -/
def mbcCreate (cartType : Nat) : Option MBCKind :=
  if cartType = 0x00 then some .mbc0
  else if 0x01 ≤ cartType ∧ cartType ≤ 0x03 then some .mbc1
  else if 0x0F ≤ cartType ∧ cartType ≤ 0x13 then some .mbc3
  else if 0x19 ≤ cartType ∧ cartType ≤ 0x1E then some .mbc5
  else none

/-- `Memory::LoadROM`: accepted iff the image has at least 0x150 bytes and
the type byte at 0x147 names a supported controller. -/
def loadROMAccepts (rom : List Nat) : Bool :=
  0x150 ≤ rom.length && (mbcCreate (rom.getD 0x147 0)).isSome

/-- `MBC0::Read` (bounds-checked in both windows). -/
def mbc0Read (rom : List Nat) (addr : Nat) : Option Nat :=
  if addr < rom.length then rom.get? addr else some 0xFF

structure MBC1State where
  rom : List Nat
  ramEnabled : Bool := false
  romBank : Nat := 1
  ramBank : Nat := 0
  bankingMode : Bool := false

/-- A freshly constructed MBC1 (member defaults from `mbc.hpp`). -/
def mbc1Init (rom : List Nat) : MBC1State := { rom := rom }

/-- `MBC1::GetROMBankOffset` (both banking modes compute the same value). -/
def mbc1ROMBankOffset (m : MBC1State) : Nat :=
  let bank := m.romBank &&& 0x1F
  (if bank = 0 then 1 else bank) * 0x4000

/-- `MBC1::Read`: the bank-0 window 0x0000-0x3FFF indexes the ROM vector
without a bounds check; the switched window 0x4000-0x7FFF is checked and
falls back to 0xFF. -/
def mbc1Read (m : MBC1State) (addr : Nat) : Option Nat :=
  if addr ≤ 0x3FFF then m.rom.get? addr
  else if addr ≤ 0x7FFF then
    let offset := mbc1ROMBankOffset m + (addr - 0x4000)
    if offset < m.rom.length then m.rom.get? offset else some 0xFF
  else some 0xFF

structure MBC3State where
  rom : List Nat
  hasRTC : Bool
  ramEnabled : Bool := false
  romBank : Nat := 1
  ramBank : Nat := 0

/-- A freshly constructed MBC3. -/
def mbc3Init (rom : List Nat) (hasRTC : Bool) : MBC3State :=
  { rom := rom, hasRTC := hasRTC }

/-- `MBC3::GetROMBankOffset`. -/
def mbc3ROMBankOffset (m : MBC3State) : Nat :=
  let bank := m.romBank &&& 0x7F
  (if bank = 0 then 1 else bank) * 0x4000

/-- `MBC3::Read` (bank-0 window unchecked, switched window checked). -/
def mbc3Read (m : MBC3State) (addr : Nat) : Option Nat :=
  if addr ≤ 0x3FFF then m.rom.get? addr
  else if addr ≤ 0x7FFF then
    let offset := mbc3ROMBankOffset m + (addr - 0x4000)
    if offset < m.rom.length then m.rom.get? offset else some 0xFF
  else some 0xFF

structure MBC5State where
  rom : List Nat
  ramEnabled : Bool := false
  romBank : Nat := 1
  ramBank : Nat := 0

/-- A freshly constructed MBC5. -/
def mbc5Init (rom : List Nat) : MBC5State := { rom := rom }

/-- `MBC5::Read` (bank-0 window unchecked, switched window checked). -/
def mbc5Read (m : MBC5State) (addr : Nat) : Option Nat :=
  if addr ≤ 0x3FFF then m.rom.get? addr
  else if addr ≤ 0x7FFF then
    let offset := m.romBank * 0x4000 + (addr - 0x4000)
    if offset < m.rom.length then m.rom.get? offset else some 0xFF
  else some 0xFF

/-- A minimal accepted ROM image: 0x150 bytes with cartridge-type byte
0x01 (MBC1) at offset 0x147 and zeroes elsewhere. -/
def smallROM : List Nat :=
  List.replicate 0x147 0x00 ++ 0x01 :: List.replicate 0x08 0x00

/-- C8 (evaluation). The 0x150-byte `smallROM` is accepted by `load_rom`
(size ≥ 0x150, recognized MBC1 type byte), yet a bank-0 read at 0x0200
(< 0x4000) indexes the ROM vector out of bounds (`none`) in MBC1 — and
likewise in MBC3 and MBC5 — because only MBC0 bounds-checks the bank-0
window; the switched bank window, by contrast, is total for every
controller state. -/
theorem mbc_bank0_read_out_of_bounds :
    loadROMAccepts smallROM = true ∧
    0x150 ≤ smallROM.length ∧ smallROM.getD 0x147 0 = 0x01 ∧
    mbcCreate 0x01 = some .mbc1 ∧ mbcCreate 0x11 = some .mbc3 ∧
    mbcCreate 0x19 = some .mbc5 ∧
    (0x0200 : Nat) ≤ 0x3FFF ∧
    mbc1Read (mbc1Init smallROM) 0x0200 = none ∧
    mbc3Read (mbc3Init smallROM true) 0x0200 = none ∧
    mbc5Read (mbc5Init smallROM) 0x0200 = none ∧
    mbc0Read smallROM 0x0200 = some 0xFF ∧
    (∀ (m : MBC1State) (addr : Nat), 0x4000 ≤ addr → addr ≤ 0x7FFF →
      (mbc1Read m addr).isSome = true) := by
  refine ⟨by decide, by decide, by decide, by decide, by decide, by decide,
    by decide, by decide, by decide, by decide, by decide, ?_⟩
  intro m addr h1 h2
  unfold mbc1Read
  rw [if_neg (by omega), if_pos h2]
  dsimp only
  by_cases hlt : mbc1ROMBankOffset m + (addr - 0x4000) < m.rom.length
  · rw [if_pos hlt]
    cases hg : m.rom.get? (mbc1ROMBankOffset m + (addr - 0x4000)) with
    | none =>
        rw [List.get?_eq_none] at hg
        omega
    | some v => rfl
  · rw [if_neg hlt]
    rfl
